import Mathlib

/-!
Verification development for the YClients API wrapper
(`yclients_wrapper.py`): a shallow embedding of the wrapper's pure
decision logic, with theorems checking the natural-language
specification against it.

Modelling conventions:
* JSON values are modelled by the inductive `JVal`; Python dictionaries
  become association lists (`List (String × JVal)`), looked up by
  `objLookup` (first binding wins; the remote API never produces
  duplicate keys).
* Python exceptions become `Except PyErr`; the wrapper's single
  `YClientsAPIError` is split into its three payload shapes (`api`,
  `http`) plus `value` for Python `ValueError` and `attr` for an
  attribute error on a non-dict value.
* The HTTP transport is abstracted as an oracle `respond : Nat → HttpResp`
  giving the response to the k-th request of one `_request` call.
* Machine floats (`backoff_factor`) are modelled as rationals; the only
  arithmetic performed on them is multiplication by powers of two.
-/

/-- JSON-shaped values as returned by the remote platform. -/
inductive JVal where
  | null : JVal
  | bool : Bool → JVal
  | num : Int → JVal
  | str : String → JVal
  | arr : List JVal → JVal
  | obj : List (String × JVal) → JVal
deriving Repr

/-- Dictionary lookup: `d.get(k)` on a Python dict modelled as an
association list (first binding wins). -/
def objLookup (fields : List (String × JVal)) (key : String) : Option JVal :=
  match fields with
  | [] => none
  | (k, v) :: rest => if k = key then some v else objLookup rest key

/-- Python truthiness of a JSON value (`bool(x)`): `None`, `False`, `0`,
`""`, `[]` and `{}` are falsy, everything else truthy. -/
def pyTruthy : JVal → Bool
  | JVal.null => false
  | JVal.bool b => b
  | JVal.num n => n != 0
  | JVal.str s => s != ""
  | JVal.arr xs => !xs.isEmpty
  | JVal.obj fs => !fs.isEmpty

/-- The wrapper's error channel: `YClientsAPIError` raised with the
platform's structured payload (`api`), with a status code and body text
(`http`), plus Python `ValueError` (`value`) and attribute errors on
non-dict values (`attr`). -/
inductive PyErr where
  | api : JVal → PyErr
  | http : Nat → String → PyErr
  | value : String → PyErr
  | attr : String → PyErr
deriving Repr

/-- One HTTP response: status code, decoded JSON body (`none` models an
empty body, for which `resp.json()` is never called), and raw text. -/
structure HttpResp where
  status : Nat
  content : Option JVal
  text : String
deriving Repr

/-- Python `x is False` on an optional JSON value: true exactly for the JSON
boolean `false` (Python identity check, so `0`, `None`, `""` etc. do not
qualify). -/
def isPyFalse : Option JVal → Bool
  | some (JVal.bool false) => true
  | _ => false

/-- The expression `data.get("meta") or data` from `_request`: the `meta` field when it
is present and truthy, otherwise the whole body. -/
def errorPayload (fs : List (String × JVal)) : JVal :=
  match objLookup fs "meta" with
  | some m => if pyTruthy m then m else JVal.obj fs
  | none => JVal.obj fs

/-- The 2xx branch of `_request` (yclients_wrapper.py lines 191-195):
`data = resp.json() if resp.content else {}`; if the body is a mapping
with `success` exactly `False`, raise `YClientsAPIError` carrying
`data.get("meta") or data`; otherwise return the body unchanged. -/
def handle2xx (content : Option JVal) : Except PyErr JVal :=
  let data := content.getD (JVal.obj [])
  match data with
  | JVal.obj fs =>
      if isPyFalse (objLookup fs "success") then
        Except.error (PyErr.api (errorPayload fs))
      else
        Except.ok data
  | other => Except.ok other

/-- Handling of a response that is not retried (yclients_wrapper.py
lines 191-197): 2xx bodies go through `handle2xx`, anything else raises
the unified error with status code and body text. -/
def settle (r : HttpResp) : Except PyErr JVal :=
  if 200 ≤ r.status ∧ r.status < 300 then handle2xx r.content
  else Except.error (PyErr.http r.status r.text)

/-- The retry loop of `_request` (yclients_wrapper.py lines 170-197).
The Python loop keeps a counter `retries` and retries a 429 while
`retries < max_retries`, sleeping `backoff_factor * 2 ** (retries - 1)`
(with the just-incremented counter) before each retry; here the bound is
carried as the remaining retry budget `gas = max_retries - retries`, so
that `retries < max_retries` is exactly `0 < gas` and the recursion is
structural.  Returns the list of sleep durations performed (in order)
together with the final outcome. -/
def requestGo (respond : Nat → HttpResp) (backoff : ℚ) (retries : Nat) :
    Nat → List ℚ × Except PyErr JVal
  | 0 => ([], settle (respond retries))
  | gas + 1 =>
      let r := respond retries
      if r.status = 429 then
        let rest := requestGo respond backoff (retries + 1) gas
        (backoff * 2 ^ retries :: rest.1, rest.2)
      else
        ([], settle r)

/-- Method `_request` with transport abstracted: the k-th issued request gets
response `respond k`. -/
def request (respond : Nat → HttpResp) (maxRetries : Nat) (backoff : ℚ) :
    List ℚ × Except PyErr JVal :=
  requestGo respond backoff 0 maxRetries

/-- Python truthiness of the optional user token: `None` and `""` are
falsy. -/
def tokenTruthy : Option String → Bool
  | some u => u != ""
  | none => false

/-- The Authorization header computed by `_request` (yclients_wrapper.py
lines 165-168): the user token is layered on only when the elevated
flag is set AND the token is truthy; otherwise the partner-token default
header is kept unchanged. -/
def authHeader (partnerToken : String) (userToken : Option String)
    (useUserToken : Bool) : String :=
  if useUserToken && tokenTruthy userToken then
    "Bearer " ++ partnerToken ++ ", User " ++ (userToken.getD "")
  else
    "Bearer " ++ partnerToken

/-- The wrapper instance's configuration, set in `__init__` and never
mutated by any operation. -/
structure ApiConfig where
  company_id : Int
  partner_token : String
  user_token : Option String
  timeout : Int
  max_retries : Nat
  backoff_factor : ℚ
deriving DecidableEq

/-- One full `_request` call: the Authorization header it sends,
the sleeps it performs and the outcome it returns. -/
def requestFull (cfg : ApiConfig) (useUserToken : Bool)
    (respond : Nat → HttpResp) : String × List ℚ × Except PyErr JVal :=
  (authHeader cfg.partner_token cfg.user_token useUserToken,
   request respond cfg.max_retries cfg.backoff_factor)

/-- Method `list_company_services` (yclients_wrapper.py line 322): a plain
`_request` with the elevated-access flag set. -/
def list_company_services (cfg : ApiConfig) (respond : Nat → HttpResp) :
    String × List ℚ × Except PyErr JVal :=
  requestFull cfg true respond

/-- The digit-only canonical form of a phone string:
`re.sub(r'[^\d]', '', phone)`. -/
def digitsOnly (s : String) : String :=
  String.mk (s.toList.filter Char.isDigit)

/-- Method `_normalize_phone` (yclients_wrapper.py lines 77-100): strip every
non-digit character; raise `ValueError` when no digit survives.  A pure
function — no network request is involved. -/
def normalize_phone (phone : String) : Except PyErr String :=
  let clean := digitsOnly phone
  if clean = "" then
    Except.error (PyErr.value "Phone number must contain at least one digit")
  else
    Except.ok clean

/-- A candidate client record as consumed by `_find_client_by_phone`:
`client.get('id')` and `client.get('phone', '')`. -/
structure Client where
  id : Option Int
  phone : String
deriving Repr, DecidableEq

/-- The search key of `_find_client_by_phone` (yclients_wrapper.py line
122): the last 7 characters of the normalized number
(`clean_phone[-7:]`), or the whole number if shorter than 7. -/
def searchDigits (clean : String) : String :=
  if 7 ≤ clean.length then String.mk (clean.toList.drop (clean.toList.length - 7))
  else clean

/-- Python `a.endswith(b)` on strings. -/
def strEndsWith (a b : String) : Bool :=
  a.toList.drop (a.toList.length - b.toList.length) == b.toList

/-- The acceptance test of the candidate loop (yclients_wrapper.py lines
135-140): exact equality of normalized numbers, or the stored number
ending with the input number when the input has at least 7 digits. -/
def phoneMatch (cleanPhone cleanClientPhone : String) : Bool :=
  cleanClientPhone == cleanPhone ||
    (strEndsWith cleanClientPhone cleanPhone && decide (7 ≤ cleanPhone.length))

/-- The candidate loop of `_find_client_by_phone` (yclients_wrapper.py
lines 130-140): for each candidate, normalize its stored phone (an
empty stored phone is kept as `''` without normalizing; a non-empty
stored phone with no digits raises `ValueError`), and collect, in order,
the candidates passing `phoneMatch`. -/
def collectMatches (cleanPhone : String) : List Client → Except PyErr (List Client)
  | [] => Except.ok []
  | c :: rest => do
      let ccp ← if c.phone = "" then Except.ok "" else normalize_phone c.phone
      let tailMatches ← collectMatches cleanPhone rest
      Except.ok (if phoneMatch cleanPhone ccp then c :: tailMatches else tailMatches)

/-- Method `_find_client_by_phone` (yclients_wrapper.py lines 102-152), with
the remote search (`find_client(phone=...)`) abstracted as an oracle
from the search key to the `data` list of the response (`none` models a
response that is not a dict with a truthy `data`, which — like an empty
candidate list — yields "not found").  Returns the first accepted
candidate, `none` when no candidate is accepted. -/
def find_client_by_phone (search : String → Option (List Client))
    (phone : String) : Except PyErr (Option Client) := do
  let cleanPhone ← normalize_phone phone
  match search (searchDigits cleanPhone) with
  | none => Except.ok none
  | some clients =>
      if clients.isEmpty then Except.ok none
      else do
        let exactMatches ← collectMatches cleanPhone clients
        match exactMatches with
        | [] => Except.ok none
        | selected :: _ => Except.ok (some selected)

example :
    request (fun _ => ⟨200, some (JVal.num 7), ""⟩) 3 (1/2) =
      ([], Except.ok (JVal.num 7)) := rfl

example : normalize_phone "+7 (912) 345-67-89" = Except.ok "79123456789" := rfl

example : searchDigits "79123456789" = "3456789" := rfl

example :
    find_client_by_phone
      (fun _ => some [⟨some 1, "79123456789"⟩]) "9123456789" =
      Except.ok (some ⟨some 1, "79123456789"⟩) := rfl

example :
    find_client_by_phone
      (fun _ => some [⟨some 1, "79123456789"⟩]) "1768" =
      Except.ok none := rfl

/-- The embedded staff sub-object of a visit record; fields are optional
because the code reads them with `staff.get(...)`. -/
structure StaffInfo where
  id : Option Int
  name : Option String
  specialization : Option String
deriving Repr, DecidableEq

/-- One visit record as consumed by `get_client_last_visit_info`;
`staff := none` models both a missing `staff` key and `staff: null`. -/
structure VisitRecord where
  id : Option Int
  date : Option String
  attendance : Option Int
  staff : Option StaffInfo
deriving Repr, DecidableEq

/-- The derived last-visit record built at yclients_wrapper.py lines
666-673. -/
structure LastVisitInfo where
  id : Int
  name : String
  specialization : String
  last_visit_date : String
  last_visit_id : Option Int
  attendance : Option Int
deriving Repr, DecidableEq

/-- The sort key `x.get('date', '')` (yclients_wrapper.py line 660). -/
def dateKey (r : VisitRecord) : String :=
  r.date.getD ""

/-- Python string comparison `a <= b`: lexicographic over code points. -/
def charListLe : List Char → List Char → Bool
  | [], _ => true
  | _ :: _, [] => false
  | a :: as2, b :: bs2 =>
      if a < b then true
      else if b < a then false
      else charListLe as2 bs2

/-- Comparison `a <= b` on the date-key strings. -/
def dateLe (a b : String) : Bool :=
  charListLe a.toList b.toList

/-- Stable descending insertion, modelling the placement discipline of
Python's stable `sorted(records, key=..., reverse=True)`: an
earlier-in-input record is inserted before the first record whose key is
less than or equal to its own, so records with equal keys keep their
input order. -/
def insertByDate (x : VisitRecord) : List VisitRecord → List VisitRecord
  | [] => [x]
  | y :: ys =>
      if dateLe (dateKey y) (dateKey x) then x :: y :: ys
      else y :: insertByDate x ys

/-- Python `sorted(records, key=lambda x: x.get('date', ''), reverse=True)`
(yclients_wrapper.py line 660): the stable descending sort by date key.
Python's sort is the unique stable sort for this (total) key order, so
the insertion sort below computes the same list. -/
def sortByDateDesc : List VisitRecord → List VisitRecord
  | [] => []
  | x :: xs => insertByDate x (sortByDateDesc xs)

/-- The guard `staff and staff.get('id') and staff.get('name')`
(yclients_wrapper.py line 664), with Python truthiness: the staff
sub-object must exist and carry a non-zero id and a non-empty name. -/
def staffUsable (r : VisitRecord) : Bool :=
  match r.staff with
  | some st => st.id.any (fun n => n != 0) && st.name.any (fun s => s != "")
  | none => false

/-- The record built from the first usable visit (yclients_wrapper.py
lines 666-673).  The `getD` defaults mirror `staff.get(...)`; `id` and
`name` defaults are never exercised on a record passing `staffUsable`. -/
def mkLastVisit (r : VisitRecord) : LastVisitInfo :=
  match r.staff with
  | some st =>
      { id := st.id.getD 0
        name := st.name.getD ""
        specialization := st.specialization.getD ""
        last_visit_date := r.date.getD ""
        last_visit_id := r.id
        attendance := r.attendance }
  | none =>
      { id := 0
        name := ""
        specialization := ""
        last_visit_date := r.date.getD ""
        last_visit_id := r.id
        attendance := r.attendance }

/-- Step 3 of `get_client_last_visit_info` (yclients_wrapper.py lines
658-680): sort the visit records by date, newest first, and return the
first one carrying usable staff information; `none` when there is no
such record. -/
def lastVisitFromRecords (records : List VisitRecord) : Option LastVisitInfo :=
  ((sortByDateDesc records).find? staffUsable).map mkLastVisit

/-- Method `get_client_last_visit_info` (yclients_wrapper.py lines 602-684),
with the two remote calls abstracted: `search` backs the client lookup
of `_find_client_by_phone`, and `visitsOf` maps a client id to the
`records` list of `client_visits` (`none` models a visits response that
is not a dict with a `data` key).  Errors raised inside (including the
`ValueError` from normalizing a candidate's phone) are logged and
re-raised by the code, hence propagate here. -/
def get_client_last_visit_info (search : String → Option (List Client))
    (visitsOf : Option Int → Option (List VisitRecord))
    (phone : String) : Except PyErr (Option LastVisitInfo) := do
  if phone = "" then
    Except.error (PyErr.value "Phone number is required")
  else do
    let _cleanPhone ← normalize_phone phone
    let exactMatch ← find_client_by_phone search phone
    match exactMatch with
    | none => Except.ok none
    | some client =>
        match visitsOf client.id with
        | none => Except.ok none
        | some records => Except.ok (lastVisitFromRecords records)

example :
    lastVisitFromRecords
      [⟨some 1, some "2024-01-01", some 1, none⟩,
       ⟨some 2, some "2024-03-01", some 1, some ⟨some 5, some "A", none⟩⟩,
       ⟨some 3, some "2024-02-01", some 1, some ⟨some 6, some "B", none⟩⟩] =
      some ⟨5, "A", "", "2024-03-01", some 2, some 1⟩ := rfl

/-- One raw service entry of the flat company-services list as read by
`build_complete_service_catalog`; optional fields are read with
`service.get(...)`, `id` is read with `service["id"]` (assumed present). -/
structure SvcService where
  id : Int
  title : Option String
  price_min : Option Int
  price_max : Option Int
  seance_length : Option Int
  category_id : Option Int
  staff : Option (List Int)
deriving Repr, DecidableEq

/-- One raw category entry (`category.get("id")`, `category.get("title", "")`). -/
structure SvcCategory where
  id : Option Int
  title : Option String
deriving Repr, DecidableEq

/-- The per-service payload built at yclients_wrapper.py lines 865-872. -/
structure ServiceData where
  service_id : Int
  title : String
  price_min : Int
  price_max : Int
  duration_seconds : Option Int
  staff : List Int
deriving Repr, DecidableEq

/-- One output category of the catalog (yclients_wrapper.py lines
879-883). -/
structure CatalogCategory where
  category_id : Option Int
  title : String
  services : List ServiceData
deriving Repr, DecidableEq

/-- The `service_data` formatting (yclients_wrapper.py lines 865-872). -/
def fmtService (s : SvcService) : ServiceData :=
  { service_id := s.id
    title := s.title.getD ""
    price_min := s.price_min.getD 0
    price_max := s.price_max.getD 0
    duration_seconds := s.seance_length
    staff := s.staff.getD [] }

/-- Appending a value to a key's bucket in an insertion-ordered dict
(`services_by_category[category_id].append(...)`, creating the bucket on
first use). -/
def addToGroup (m : List (Int × List ServiceData)) (k : Int)
    (v : ServiceData) : List (Int × List ServiceData) :=
  match m with
  | [] => [(k, [v])]
  | (k2, vs) :: rest =>
      if k2 = k then (k2, vs ++ [v]) :: rest
      else (k2, vs) :: addToGroup rest k v

/-- One iteration of the grouping loop of
`build_complete_service_catalog` (yclients_wrapper.py lines 858-874):
a service whose `category_id` is truthy (`if category_id:` — present and
non-zero) is formatted and appended to its category's bucket; any other
service leaves the mapping unchanged. -/
def catalogStep (m : List (Int × List ServiceData)) (s : SvcService) :
    List (Int × List ServiceData) :=
  match s.category_id with
  | some c => if c ≠ 0 then addToGroup m c (fmtService s) else m
  | none => m

/-- The grouping pass over the flat service list (yclients_wrapper.py
lines 857-874). -/
def servicesByCategory (services : List SvcService) :
    List (Int × List ServiceData) :=
  services.foldl catalogStep []

/-- Lookup `services_by_category.get(k, [])`. -/
def groupGet (m : List (Int × List ServiceData)) (k : Int) : List ServiceData :=
  match m with
  | [] => []
  | (k2, vs) :: rest => if k2 = k then vs else groupGet rest k

/-- The category-assembly pass of `build_complete_service_catalog`
(yclients_wrapper.py lines 876-884): every category of the category list
becomes one output entry whose `services` is its bucket in the grouping
(empty when absent; a category with a missing id looks up nothing). -/
def buildCatalogCategories (categories : List SvcCategory)
    (services : List SvcService) : List CatalogCategory :=
  let groups := servicesByCategory services
  categories.map (fun cat =>
    { category_id := cat.id
      title := cat.title.getD ""
      services :=
        match cat.id with
        | some c => groupGet groups c
        | none => [] })

example :
    (buildCatalogCategories
      [⟨some 1, some "X"⟩, ⟨some 2, some "Y"⟩]
      [⟨10, none, none, none, none, some 1, none⟩,
       ⟨11, none, none, none, none, some 1, none⟩,
       ⟨12, none, none, none, none, some 99, none⟩]).map
      (fun c => (c.category_id, (c.services.map (fun s => s.service_id)))) =
      [(some 1, [10, 11]), (some 2, [])] := rfl

/-- The `disabled` test of the branch filter (yclients_wrapper.py line
249): `c.get("disabled", False)` under Python truthiness; calling `.get`
on a non-dict entry raises an attribute error. -/
def branchDisabled (c : JVal) : Except PyErr Bool :=
  match c with
  | JVal.obj fs => Except.ok (pyTruthy ((objLookup fs "disabled").getD (JVal.bool false)))
  | _ => Except.error (PyErr.attr "list entry has no attribute get")

/-- The comprehension `[c for c in branches if not c.get("disabled", False)]`. -/
def filterActiveBranches : List JVal → Except PyErr (List JVal)
  | [] => Except.ok []
  | c :: rest => do
      let d ← branchDisabled c
      let tailKept ← filterActiveBranches rest
      Except.ok (if d then tailKept else c :: tailKept)

/-- The response normalization of `list_branches` (yclients_wrapper.py
lines 227-259): a dict with a `data` key has its payload filtered (when
`active_only` and the payload is a list) and is re-wrapped as
`{success, data, meta}` with defaults `True` / `[]`; a bare list is
filtered and returned bare; anything else is returned unchanged.  (The
`elif` branches testing `"success" in response` on a dict without `data`
and `isinstance(response, list)` inside the dict arm are unreachable and
have no counterpart here.) -/
def listBranchesNormalize (response : JVal) (activeOnly : Bool) :
    Except PyErr JVal := do
  match response with
  | JVal.obj fs =>
      match objLookup fs "data" with
      | some d => do
          let branches ←
            match d with
            | JVal.arr xs =>
                if activeOnly then do
                  let kept ← filterActiveBranches xs
                  Except.ok (JVal.arr kept)
                else Except.ok d
            | _ => Except.ok d
          Except.ok (JVal.obj
            [("success", (objLookup fs "success").getD (JVal.bool true)),
             ("data", branches),
             ("meta", (objLookup fs "meta").getD (JVal.arr []))])
      | none => Except.ok response
  | JVal.arr xs =>
      if activeOnly then do
        let kept ← filterActiveBranches xs
        Except.ok (JVal.arr kept)
      else Except.ok (JVal.arr xs)
  | other => Except.ok other

/-- Method `list_branches` (yclients_wrapper.py lines 200-259) as a
state-passing operation: it reads the instance configuration, performs
one `_request` (no elevated flag) and normalizes the decoded response;
the configuration is returned unchanged because the operation never
mutates the instance. -/
def list_branches (cfg : ApiConfig) (respond : Nat → HttpResp)
    (activeOnly : Bool) : ApiConfig × Except PyErr JVal :=
  (cfg,
    match (request respond cfg.max_retries cfg.backoff_factor).2 with
    | Except.error e => Except.error e
    | Except.ok resp => listBranchesNormalize resp activeOnly)

example :
    listBranchesNormalize
      (JVal.obj [("success", JVal.bool true),
                 ("data", JVal.arr
                    [JVal.obj [("id", JVal.num 1)],
                     JVal.obj [("id", JVal.num 2), ("disabled", JVal.bool true)]]),
                 ("meta", JVal.arr [])]) true =
      Except.ok (JVal.obj [("success", JVal.bool true),
        ("data", JVal.arr [JVal.obj [("id", JVal.num 1)]]),
        ("meta", JVal.arr [])]) := rfl

/-! ## Helper lemmas about catalog grouping -/

theorem groupGet_addToGroup_same (m : List (Int × List ServiceData)) (k : Int)
    (v : ServiceData) :
    groupGet (addToGroup m k v) k = groupGet m k ++ [v] := by
  induction m with
  | nil => simp [addToGroup, groupGet]
  | cons p rest ih =>
      obtain ⟨k2, vs⟩ := p
      rw [addToGroup]
      by_cases h : k2 = k
      · rw [if_pos h]
        simp [groupGet, h]
      · rw [if_neg h]
        simp [groupGet, h, ih]

theorem groupGet_addToGroup_other (m : List (Int × List ServiceData))
    (k k2 : Int) (v : ServiceData) (hk : k2 ≠ k) :
    groupGet (addToGroup m k v) k2 = groupGet m k2 := by
  induction m with
  | nil => simp [addToGroup, groupGet, Ne.symm hk]
  | cons p rest ih =>
      obtain ⟨k3, vs⟩ := p
      rw [addToGroup]
      by_cases h : k3 = k
      · rw [if_pos h]
        subst h
        simp [groupGet, Ne.symm hk]
      · rw [if_neg h]
        simp [groupGet, ih]

theorem groupGet_fold (k : Int) :
    ∀ (ss : List SvcService) (acc : List (Int × List ServiceData)),
      groupGet (ss.foldl catalogStep acc) k =
      groupGet acc k ++
        (ss.filter (fun s => s.category_id == some k && decide (k ≠ 0))).map
          fmtService := by
  intro ss
  induction ss with
  | nil =>
      intro acc
      simp
  | cons s rest ih =>
      intro acc
      rw [List.foldl_cons, List.filter_cons]
      cases hcid : s.category_id with
      | none =>
          have hstep : catalogStep acc s = acc := by
            simp [catalogStep, hcid]
          rw [hstep, ih]
          simp [hcid]
      | some c =>
          by_cases hc : c ≠ 0
          · have hstep : catalogStep acc s = addToGroup acc c (fmtService s) := by
              simp [catalogStep, hcid, hc]
            rw [hstep, ih]
            by_cases hck : c = k
            · subst hck
              rw [groupGet_addToGroup_same]
              simp [hcid, hc, List.append_assoc]
            · rw [groupGet_addToGroup_other _ _ _ _ (Ne.symm hck)]
              simp [hcid, hck]
          · have hc0 : c = 0 := by omega
            subst hc0
            have hstep : catalogStep acc s = acc := by
              simp [catalogStep, hcid]
            rw [hstep, ih]
            by_cases hk0 : k = 0
            · simp [hk0]
            · simp [hcid, hk0, Ne.symm hk0]

theorem groupGet_servicesByCategory (services : List SvcService) (k : Int) :
    groupGet (servicesByCategory services) k =
      (services.filter (fun s => s.category_id == some k && decide (k ≠ 0))).map
        fmtService := by
  have h := groupGet_fold k services []
  rw [servicesByCategory, h]
  rfl

/-! ## Helper lemmas about the retry loop -/

theorem requestGo_gas_zero (respond : Nat → HttpResp) (b : ℚ) (r : Nat) :
    requestGo respond b r 0 = ([], settle (respond r)) := rfl

theorem requestGo_step_429 (respond : Nat → HttpResp) (b : ℚ) (r g : Nat)
    (h : (respond r).status = 429) :
    requestGo respond b r (g + 1) =
      (b * 2 ^ r :: (requestGo respond b (r + 1) g).1,
       (requestGo respond b (r + 1) g).2) := by
  simp [requestGo, h]

theorem requestGo_step_other (respond : Nat → HttpResp) (b : ℚ) (r g : Nat)
    (h : (respond r).status ≠ 429) :
    requestGo respond b r (g + 1) = ([], settle (respond r)) := by
  simp [requestGo, h]

theorem requestGo_all429 (respond : Nat → HttpResp) (b : ℚ) :
    ∀ (g r : Nat), (∀ i, r ≤ i → i < r + g → (respond i).status = 429) →
      requestGo respond b r g =
        ((List.range g).map (fun k => b * 2 ^ (r + k)), settle (respond (r + g))) := by
  intro g
  induction g with
  | zero => intro r _; simp [requestGo_gas_zero]
  | succ g ih =>
      intro r h
      have h0 : (respond r).status = 429 := h r (le_refl r) (by omega)
      rw [requestGo_step_429 respond b r g h0]
      have hrec := ih (r + 1) (fun i h1 h2 => h i (by omega) (by omega))
      rw [hrec]
      have hrange : (List.range (g + 1)).map (fun k => b * 2 ^ (r + k)) =
          b * 2 ^ r :: (List.range g).map (fun k => b * 2 ^ (r + 1 + k)) := by
        rw [List.range_succ_eq_map, List.map_cons, List.map_map, Nat.add_zero]
        refine congrArg (List.cons (b * 2 ^ r)) (List.map_congr_left ?_)
        intro k _
        have hk : r + Nat.succ k = r + 1 + k := by omega
        simp [Function.comp, hk]
      rw [hrange, show r + (g + 1) = r + 1 + g by omega]

theorem requestGo_sleeps_length (respond : Nat → HttpResp) (b : ℚ) :
    ∀ (g r : Nat), ((requestGo respond b r g).1).length ≤ g := by
  intro g
  induction g with
  | zero => intro r; simp [requestGo_gas_zero]
  | succ g ih =>
      intro r
      by_cases h : (respond r).status = 429
      · rw [requestGo_step_429 respond b r g h]
        simpa using Nat.succ_le_succ (ih (r + 1))
      · rw [requestGo_step_other respond b r g h]
        simp

theorem request_first_not_429 (respond : Nat → HttpResp) (b : ℚ) (m : Nat)
    (h : (respond 0).status ≠ 429) :
    request respond m b = ([], settle (respond 0)) := by
  cases m with
  | zero => rfl
  | succ g => exact requestGo_step_other respond b 0 g h

/-! ## Claims C1-C3 -/

/-- Concrete instance configuration constructed with `user_token=None`. -/
def cfgNoUser : ApiConfig :=
  { company_id := 4564
    partner_token := "pt"
    user_token := none
    timeout := 10
    max_retries := 3
    backoff_factor := 1/2 }

/-- Transport oracle answering every request with a plain 200 response. -/
def respondOk : Nat → HttpResp :=
  fun _ => ⟨200, some (JVal.obj [("success", JVal.bool true), ("data", JVal.arr [])]), ""⟩

/-- C1, counterexample: with `user_token=None`, `list_company_services`
(elevated-access flag set) does NOT fail: the request is sent with only
the partner token and its 200 response is returned as a success.  The
claimed clear failure does not happen. -/
theorem list_company_services_no_user_token_succeeds :
    cfgNoUser.user_token = none ∧
    (list_company_services cfgNoUser respondOk).1 = "Bearer pt" ∧
    (list_company_services cfgNoUser respondOk).2.2 =
      Except.ok (JVal.obj [("success", JVal.bool true), ("data", JVal.arr [])]) :=
  ⟨rfl, by decide, rfl⟩

/-- C1, amended: when the instance was constructed with `user_token`
absent, every operation that sets the elevated-access flag silently
proceeds with only the partner token — its header and whole outcome
coincide with those of the same request without the flag, and no error
is raised on account of the missing token. -/
theorem elevated_access_silent_fallback (cfg : ApiConfig) (useUserToken : Bool)
    (respond : Nat → HttpResp) (h : cfg.user_token = none) :
    requestFull cfg useUserToken respond = requestFull cfg false respond ∧
    (requestFull cfg useUserToken respond).1 = "Bearer " ++ cfg.partner_token ∧
    list_company_services cfg respond = requestFull cfg false respond := by
  refine ⟨?_, ?_, ?_⟩ <;>
    simp [requestFull, list_company_services, authHeader, tokenTruthy, h]

theorem elevated_access_silent_fallback_witness :
    cfgNoUser.user_token = none ∧
    list_company_services cfgNoUser respondOk = requestFull cfgNoUser false respondOk :=
  ⟨rfl, (elevated_access_silent_fallback cfgNoUser true respondOk rfl).2.2⟩

/-- C2: for a `_request` call with `max_retries = n` whose first `n`
responses are all 429 — (i) exactly `n` sleeps happen and the k-th sleep
(1-indexed) is `backoff_factor * 2 ^ (k-1)`; (ii) when the (n+1)-th
response is a 2xx the call succeeds with that body; (iii) when it is a
further 429 the call surfaces the unified error carrying that last 429
response; (iv) any first response other than 429 is settled immediately
with no retry, whatever the retry budget; (v) the number of sleeps never
exceeds `max_retries`, so the loop always terminates. -/
theorem request_retry_policy (respond : Nat → HttpResp) (n : Nat) (b : ℚ)
    (h429 : ∀ i, i < n → (respond i).status = 429) :
    (request respond n b).1 = (List.range n).map (fun k => b * 2 ^ k) ∧
    (200 ≤ (respond n).status ∧ (respond n).status < 300 →
      (request respond n b).2 = handle2xx (respond n).content) ∧
    ((respond n).status = 429 →
      (request respond n b).2 = Except.error (PyErr.http 429 (respond n).text)) ∧
    (∀ m : Nat, (respond 0).status ≠ 429 →
      request respond m b = ([], settle (respond 0))) ∧
    (∀ (oracle : Nat → HttpResp) (m : Nat), ((request oracle m b).1).length ≤ m) := by
  have hrun := requestGo_all429 respond b n 0 (fun i h1 h2 => h429 i (by omega))
  have hreq : request respond n b =
      ((List.range n).map (fun k => b * 2 ^ k), settle (respond n)) := by
    rw [request, hrun]
    simp
  refine ⟨by rw [hreq], ?_, ?_, ?_, ?_⟩
  · intro h2xx
    rw [hreq]
    simp only [settle, if_pos h2xx]
  · intro h4
    rw [hreq]
    have : ¬ (200 ≤ (respond n).status ∧ (respond n).status < 300) := by omega
    simp only [settle, if_neg this]
    rw [h4]
  · intro m hm
    exact request_first_not_429 respond b m hm
  · intro oracle m
    exact requestGo_sleeps_length oracle b m 0

/-- Transport oracle: three 429 responses, then 200 forever. -/
def respond429x3 : Nat → HttpResp :=
  fun k => if k < 3 then ⟨429, none, "rate limited"⟩
           else ⟨200, some (JVal.obj [("data", JVal.arr [])]), "ok"⟩

/-- Transport oracle: 429 on every request. -/
def respond429always : Nat → HttpResp :=
  fun _ => ⟨429, none, "rate limited"⟩

theorem request_retry_policy_witness :
    ((request respond429x3 3 (1/2)).1 =
        (List.range 3).map (fun k => (1/2 : ℚ) * 2 ^ k) ∧
      (request respond429x3 3 (1/2)).2 = handle2xx (respond429x3 3).content) ∧
    (request respond429always 3 (1/2)).2 =
      Except.error (PyErr.http 429 (respond429always 3).text) :=
  ⟨⟨(request_retry_policy respond429x3 3 (1/2) (by decide)).1,
    (request_retry_policy respond429x3 3 (1/2) (by decide)).2.1 (by decide)⟩,
   (request_retry_policy respond429always 3 (1/2) (by decide)).2.2.1 (by decide)⟩

/-- Field `success` is compared with Python `is False`: only the JSON boolean
`false` triggers the error branch. -/
theorem isPyFalse_iff (o : Option JVal) :
    isPyFalse o = true ↔ o = some (JVal.bool false) := by
  cases o with
  | none => simp [isPyFalse]
  | some v =>
      cases v with
      | bool b => cases b <;> simp [isPyFalse]
      | null => simp [isPyFalse]
      | num n => simp [isPyFalse]
      | str s => simp [isPyFalse]
      | arr xs => simp [isPyFalse]
      | obj fs => simp [isPyFalse]

/-- C3, counterexample: a 2xx body `{"success": false, "meta": []}` has
`meta` present, so the claim requires the raised payload to be `[]`; the
code raises `data.get("meta") or data`, i.e. the whole body, because the
present `meta` is falsy. -/
theorem handle2xx_empty_meta_payload :
    handle2xx (some (JVal.obj [("success", JVal.bool false), ("meta", JVal.arr [])])) =
      Except.error (PyErr.api
        (JVal.obj [("success", JVal.bool false), ("meta", JVal.arr [])])) ∧
    JVal.obj [("success", JVal.bool false), ("meta", JVal.arr [])] ≠ JVal.arr [] :=
  ⟨rfl, by simp⟩

/-- C3, amended: a 2xx with an empty body yields the empty mapping; a
2xx mapping whose `success` field is exactly `false` raises the
wrapper's error carrying the platform's payload — the `meta` field when
it is present AND truthy (non-empty), otherwise the whole body; every
other 2xx body is returned unchanged (mappings without the exact-`false`
flag, and non-mapping bodies). -/
theorem handle2xx_success_flag (fs : List (String × JVal)) (j : JVal) :
    (handle2xx none = Except.ok (JVal.obj [])) ∧
    (objLookup fs "success" = some (JVal.bool false) →
      handle2xx (some (JVal.obj fs)) = Except.error (PyErr.api (errorPayload fs))) ∧
    (∀ m, objLookup fs "meta" = some m → pyTruthy m = true → errorPayload fs = m) ∧
    (∀ m, objLookup fs "meta" = some m → pyTruthy m = false →
      errorPayload fs = JVal.obj fs) ∧
    (objLookup fs "meta" = none → errorPayload fs = JVal.obj fs) ∧
    (objLookup fs "success" ≠ some (JVal.bool false) →
      handle2xx (some (JVal.obj fs)) = Except.ok (JVal.obj fs)) ∧
    ((∀ gs, j ≠ JVal.obj gs) → handle2xx (some j) = Except.ok j) := by
  refine ⟨rfl, ?_, ?_, ?_, ?_, ?_, ?_⟩
  · intro hs
    have : isPyFalse (objLookup fs "success") = true := (isPyFalse_iff _).mpr hs
    simp [handle2xx, this]
  · intro m hm ht
    simp [errorPayload, hm, ht]
  · intro m hm ht
    simp [errorPayload, hm, ht]
  · intro hm
    simp [errorPayload, hm]
  · intro hs
    have : isPyFalse (objLookup fs "success") = false := by
      rcases Bool.eq_false_or_eq_true (isPyFalse (objLookup fs "success")) with h | h
      · exact absurd ((isPyFalse_iff _).mp h) hs
      · exact h
    simp [handle2xx, this]
  · intro hj
    cases j with
    | obj gs => exact absurd rfl (hj gs)
    | null => rfl
    | bool b => rfl
    | num n => rfl
    | str s => rfl
    | arr xs => rfl

theorem handle2xx_success_flag_witness :
    (handle2xx (some (JVal.obj [("success", JVal.bool false), ("meta", JVal.str "err")])) =
      Except.error (PyErr.api
        (errorPayload [("success", JVal.bool false), ("meta", JVal.str "err")]))) ∧
    errorPayload [("success", JVal.bool false), ("meta", JVal.str "err")] = JVal.str "err" ∧
    handle2xx (some (JVal.obj [("success", JVal.bool true)])) =
      Except.ok (JVal.obj [("success", JVal.bool true)]) ∧
    handle2xx (some (JVal.arr [JVal.num 3])) = Except.ok (JVal.arr [JVal.num 3]) :=
  ⟨(handle2xx_success_flag [("success", JVal.bool false), ("meta", JVal.str "err")]
      JVal.null).2.1 rfl,
   (handle2xx_success_flag [("success", JVal.bool false), ("meta", JVal.str "err")]
      JVal.null).2.2.1 (JVal.str "err") rfl rfl,
   (handle2xx_success_flag [("success", JVal.bool true)] JVal.null).2.2.2.2.2.1
      (by simp [objLookup]),
   (handle2xx_success_flag [] (JVal.arr [JVal.num 3])).2.2.2.2.2.2
      (by intro gs; simp)⟩

/-! ## Claims C4-C6 -/

/-- C4: when the input contains at least one digit, normalization
returns exactly its digit subsequence in the original order (a string of
only digits); when it contains no digit, normalization raises
`ValueError` — and it is a pure function, involving no request. -/
theorem normalize_phone_spec (s : String) :
    (s.toList.any Char.isDigit = true →
      normalize_phone s = Except.ok (digitsOnly s) ∧
      (digitsOnly s).toList = s.toList.filter Char.isDigit ∧
      (digitsOnly s).toList.all Char.isDigit = true) ∧
    (s.toList.any Char.isDigit = false →
      normalize_phone s =
        Except.error (PyErr.value "Phone number must contain at least one digit")) := by
  constructor
  · intro hdig
    have hne : s.toList.filter Char.isDigit ≠ [] := by
      rcases List.any_eq_true.mp hdig with ⟨c, hc, hcd⟩
      intro hnil
      have hmem : c ∈ s.toList.filter Char.isDigit := List.mem_filter.mpr ⟨hc, hcd⟩
      rw [hnil] at hmem
      exact List.not_mem_nil c hmem
    have hne2 : digitsOnly s ≠ "" := by
      intro h
      exact hne (congrArg String.data h)
    refine ⟨?_, rfl, ?_⟩
    · simp [normalize_phone, hne2]
    · apply List.all_eq_true.mpr
      intro c hcmem
      exact List.of_mem_filter hcmem
  · intro hnone
    have hfil : s.toList.filter Char.isDigit = [] := by
      apply List.filter_eq_nil_iff.mpr
      intro a ha
      simpa using List.any_eq_false.mp hnone a ha
    have hempty : digitsOnly s = "" := by
      unfold digitsOnly
      rw [hfil]
    simp [normalize_phone, hempty]

theorem normalize_phone_spec_witness :
    normalize_phone "+7 (912) 345-67-89" = Except.ok (digitsOnly "+7 (912) 345-67-89") ∧
    digitsOnly "+7 (912) 345-67-89" = "79123456789" ∧
    normalize_phone "abc--" =
      Except.error (PyErr.value "Phone number must contain at least one digit") :=
  ⟨((normalize_phone_spec "+7 (912) 345-67-89").1 (by decide)).1,
   by decide,
   (normalize_phone_spec "abc--").2 (by decide)⟩

/-- The one stored client of the C5 example. -/
def storedClient : Client := ⟨some 1, "79123456789"⟩

theorem collectMatches_cons (clean : String) (c : Client) (rest : List Client) :
    collectMatches clean (c :: rest) =
      Except.bind (if c.phone = "" then Except.ok "" else normalize_phone c.phone)
        (fun ccp => Except.bind (collectMatches clean rest)
          (fun tailMatches =>
            Except.ok (if phoneMatch clean ccp then c :: tailMatches else tailMatches))) := by
  by_cases hp : c.phone = ""
  · rw [collectMatches, if_pos hp, if_pos hp]
    rfl
  · rw [collectMatches, if_neg hp, if_neg hp]
    rfl

theorem find_client_by_phone_unfold (s : String → Option (List Client))
    (phone clean : String) (h : normalize_phone phone = Except.ok clean) :
    find_client_by_phone s phone =
      (match s (searchDigits clean) with
        | none => Except.ok none
        | some clients =>
            if clients.isEmpty then Except.ok none
            else Except.bind (collectMatches clean clients)
              (fun exactMatches =>
                match exactMatches with
                | [] => Except.ok none
                | selected :: _ => Except.ok (some selected))) := by
  rw [find_client_by_phone, h]
  rfl

/-- C5: the key sent to the remote search is the last 7 digits of the
normalized input (the whole number when shorter) — the lookup observes
the search oracle only at that key; and a returned candidate is accepted
if and only if its normalized stored phone equals the normalized input,
or ends with it while the input has at least 7 digits.  The concrete
cases of the specification are included. -/
theorem find_client_by_phone_matching :
    (∀ (phone clean : String) (s1 s2 : String → Option (List Client)),
      normalize_phone phone = Except.ok clean →
      s1 (searchDigits clean) = s2 (searchDigits clean) →
      find_client_by_phone s1 phone = find_client_by_phone s2 phone) ∧
    (∀ clean : String, 7 ≤ clean.length →
      (searchDigits clean).toList = clean.toList.drop (clean.toList.length - 7) ∧
      (searchDigits clean).length = 7) ∧
    (∀ clean : String, clean.length < 7 → searchDigits clean = clean) ∧
    (∀ (clean : String) (clients accepted : List Client),
      collectMatches clean clients = Except.ok accepted →
      accepted = clients.filter (fun c => phoneMatch clean (digitsOnly c.phone)) ∧
      ∀ c : Client, c ∈ accepted ↔
        c ∈ clients ∧
          (digitsOnly c.phone == clean ||
            (strEndsWith (digitsOnly c.phone) clean && decide (7 ≤ clean.length))) = true) ∧
    (find_client_by_phone (fun _ => some [storedClient]) "79123456789" =
        Except.ok (some storedClient) ∧
      find_client_by_phone (fun _ => some [storedClient]) "+7 (912) 345-67-89" =
        Except.ok (some storedClient) ∧
      find_client_by_phone (fun _ => some [storedClient]) "9123456789" =
        Except.ok (some storedClient) ∧
      find_client_by_phone (fun _ => some [storedClient]) "1768" = Except.ok none) := by
  refine ⟨?_, ?_, ?_, ?_, rfl, rfl, rfl, rfl⟩
  · intro phone clean s1 s2 hnorm hkey
    rw [find_client_by_phone_unfold s1 phone clean hnorm,
        find_client_by_phone_unfold s2 phone clean hnorm, hkey]
  · intro clean h7
    constructor
    · simp [searchDigits, h7]
    · simp only [searchDigits, if_pos h7]
      show (clean.toList.drop (clean.toList.length - 7)).length = 7
      rw [List.length_drop]
      have : clean.toList.length = clean.length := rfl
      omega
  · intro clean h7
    simp [searchDigits, Nat.not_le.mpr h7]
  · intro clean clients
    induction clients with
    | nil =>
        intro accepted h
        simp [collectMatches] at h
        subst h
        simp
    | cons c rest ih =>
        intro accepted h
        rw [collectMatches_cons] at h
        rcases hccp : (if c.phone = "" then Except.ok "" else normalize_phone c.phone)
            with e | ccp
        · rw [hccp] at h
          have h3 : (Except.error e : Except PyErr (List Client)) = Except.ok accepted := h
          cases h3
        · have hccp2 : ccp = digitsOnly c.phone := by
            by_cases hp : c.phone = ""
            · rw [if_pos hp] at hccp
              cases hccp
              rw [hp]
              rfl
            · rw [if_neg hp] at hccp
              by_cases hd : digitsOnly c.phone = ""
              · simp [normalize_phone, hd] at hccp
              · simp [normalize_phone, hd] at hccp
                exact hccp.symm
          rw [hccp] at h
          rcases hrest : collectMatches clean rest with e | t
          · rw [hrest] at h
            have h3 : (Except.error e : Except PyErr (List Client)) = Except.ok accepted := h
            cases h3
          · rw [hrest] at h
            have h3 : Except.ok (if phoneMatch clean ccp then c :: t else t) =
                Except.ok accepted := h
            have h4 : (if phoneMatch clean ccp then c :: t else t) = accepted := by
              cases h3
              rfl
            have h : accepted = if phoneMatch clean ccp then c :: t else t := h4.symm
            have ht := ih t hrest
            subst hccp2
            constructor
            · rw [h, ht.1, List.filter_cons]
            · intro x
              rw [h]
              by_cases hm : phoneMatch clean (digitsOnly c.phone) = true
              · rw [if_pos hm]
                constructor
                · intro hx
                  rcases List.mem_cons.mp hx with hx | hx
                  · subst hx
                    exact ⟨List.mem_cons_self _ _, hm⟩
                  · rcases (ht.2 x).mp hx with ⟨hx1, hx2⟩
                    exact ⟨List.mem_cons_of_mem _ hx1, hx2⟩
                · rintro ⟨hx1, hx2⟩
                  rcases List.mem_cons.mp hx1 with hx | hx
                  · subst hx
                    exact List.mem_cons_self _ _
                  · exact List.mem_cons_of_mem _ ((ht.2 x).mpr ⟨hx, hx2⟩)
              · simp [Bool.not_eq_true] at hm
                rw [if_neg (by simp [hm])]
                constructor
                · intro hx
                  rcases (ht.2 x).mp hx with ⟨hx1, hx2⟩
                  exact ⟨List.mem_cons_of_mem _ hx1, hx2⟩
                · rintro ⟨hx1, hx2⟩
                  rcases List.mem_cons.mp hx1 with hx | hx
                  · subst hx
                    rw [phoneMatch] at hm
                    rw [hm] at hx2
                    cases hx2
                  · exact (ht.2 x).mpr ⟨hx, hx2⟩

example :
    request (fun k => if k < 2 then ⟨429, none, "slow"⟩ else ⟨200, none, ""⟩)
      3 (1/2) =
      ([1/2 * 2 ^ 0, 1/2 * 2 ^ 1], Except.ok (JVal.obj [])) := rfl

theorem find_client_by_phone_matching_witness :
    (find_client_by_phone
        (fun q => if q = "3456789" then some [storedClient] else none) "9123456789" =
      find_client_by_phone (fun _ => some [storedClient]) "9123456789") ∧
    [storedClient] =
      [storedClient].filter
        (fun c => phoneMatch "9123456789" (digitsOnly c.phone)) :=
  ⟨find_client_by_phone_matching.1 "9123456789" "9123456789"
      (fun q => if q = "3456789" then some [storedClient] else none)
      (fun _ => some [storedClient]) rfl rfl,
   (find_client_by_phone_matching.2.2.2.1 "9123456789"
      [storedClient] [storedClient] rfl).1⟩

/-- C6: when several candidates pass the matching criterion the lookup
returns the first passing candidate in search order, raising no
ambiguity error; when none passes — or when the search returns no
data — it returns "not found" (`none`), not an error. -/
theorem find_client_by_phone_selection (search : String → Option (List Client))
    (phone clean : String) (clients ms : List Client)
    (hnorm : normalize_phone phone = Except.ok clean) :
    (search (searchDigits clean) = none →
      find_client_by_phone search phone = Except.ok none) ∧
    (search (searchDigits clean) = some [] →
      find_client_by_phone search phone = Except.ok none) ∧
    (search (searchDigits clean) = some clients → clients ≠ [] →
      collectMatches clean clients = Except.ok ms →
      (ms = [] → find_client_by_phone search phone = Except.ok none) ∧
      (∀ (c : Client) (rest : List Client), ms = c :: rest →
        find_client_by_phone search phone = Except.ok (some c))) := by
  refine ⟨?_, ?_, ?_⟩
  · intro hs
    rw [find_client_by_phone_unfold search phone clean hnorm, hs]
  · intro hs
    rw [find_client_by_phone_unfold search phone clean hnorm, hs]
    rfl
  · intro hs hne hcm
    cases clients with
    | nil => exact absurd rfl hne
    | cons a rest2 =>
        have hxy : find_client_by_phone search phone =
            Except.bind (Except.ok ms)
              (fun exactMatches =>
                match exactMatches with
                | [] => Except.ok none
                | selected :: _ => Except.ok (some selected)) := by
          rw [find_client_by_phone_unfold search phone clean hnorm, hs]
          exact congrArg
            (fun z => Except.bind z
              (fun exactMatches =>
                match exactMatches with
                | ([] : List Client) => Except.ok none
                | selected :: _ => Except.ok (some selected))) hcm
        constructor
        · intro hms
          subst hms
          exact hxy.trans rfl
        · intro c rest hms
          subst hms
          exact hxy.trans rfl

theorem find_client_by_phone_selection_witness :
    find_client_by_phone
        (fun _ => some [storedClient, ⟨some 2, "79123456789"⟩, ⟨some 3, "5550000"⟩])
        "9123456789" =
      Except.ok (some storedClient) ∧
    find_client_by_phone (fun _ => some [⟨some 3, "5550000"⟩]) "9123456789" =
      Except.ok none :=
  ⟨((find_client_by_phone_selection
      (fun _ => some [storedClient, ⟨some 2, "79123456789"⟩, ⟨some 3, "5550000"⟩])
      "9123456789" "9123456789"
      [storedClient, ⟨some 2, "79123456789"⟩, ⟨some 3, "5550000"⟩]
      [storedClient, ⟨some 2, "79123456789"⟩] rfl).2.2 rfl
      (by simp) rfl).2 storedClient [⟨some 2, "79123456789"⟩] rfl,
   ((find_client_by_phone_selection (fun _ => some [⟨some 3, "5550000"⟩])
      "9123456789" "9123456789" [⟨some 3, "5550000"⟩] [] rfl).2.2 rfl
      (by simp) rfl).1 rfl⟩

/-! ## Claims C7 and C10 -/

theorem charListLe_cons_self (x : Char) (xs ys : List Char) :
    charListLe (x :: xs) (x :: ys) = charListLe xs ys := by
  simp [charListLe]

theorem charListLe_cons_lt {x y : Char} (h : x < y) (xs ys : List Char) :
    charListLe (x :: xs) (y :: ys) = true := by
  simp [charListLe, h]

theorem charListLe_cons_gt {x y : Char} (h : y < x) (xs ys : List Char) :
    charListLe (x :: xs) (y :: ys) = false := by
  simp [charListLe, h, lt_asymm h]

theorem charListLe_refl : ∀ l : List Char, charListLe l l = true
  | [] => rfl
  | x :: xs => by rw [charListLe_cons_self]; exact charListLe_refl xs

theorem charListLe_trans : ∀ (a b c : List Char),
    charListLe a b = true → charListLe b c = true → charListLe a c = true
  | [], _, _, _, _ => rfl
  | _ :: _, [], _, h1, _ => by simp [charListLe] at h1
  | _ :: _, _ :: _, [], _, h2 => by simp [charListLe] at h2
  | a :: as2, b :: bs2, c :: cs2, h1, h2 => by
      rcases lt_trichotomy a b with hab | hab | hab
      · rcases lt_trichotomy b c with hbc | hbc | hbc
        · rw [charListLe_cons_lt (lt_trans hab hbc)]
        · subst hbc
          rw [charListLe_cons_lt hab]
        · rw [charListLe_cons_gt hbc] at h2
          cases h2
      · subst hab
        rw [charListLe_cons_self] at h1
        rcases lt_trichotomy a c with hac | hac | hac
        · rw [charListLe_cons_lt hac]
        · subst hac
          rw [charListLe_cons_self] at h2 ⊢
          exact charListLe_trans as2 bs2 cs2 h1 h2
        · rw [charListLe_cons_gt hac] at h2
          cases h2
      · rw [charListLe_cons_gt hab] at h1
        cases h1

theorem charListLe_total : ∀ (a b : List Char),
    charListLe a b = true ∨ charListLe b a = true
  | [], _ => Or.inl rfl
  | _ :: _, [] => Or.inr rfl
  | a :: as2, b :: bs2 => by
      rcases lt_trichotomy a b with hab | hab | hab
      · exact Or.inl (charListLe_cons_lt hab as2 bs2)
      · subst hab
        rw [charListLe_cons_self, charListLe_cons_self]
        exact charListLe_total as2 bs2
      · exact Or.inr (charListLe_cons_lt hab bs2 as2)

theorem dateLe_trans {a b c : String} (h1 : dateLe a b = true)
    (h2 : dateLe b c = true) : dateLe a c = true :=
  charListLe_trans a.toList b.toList c.toList h1 h2

theorem dateLe_total (a b : String) : dateLe a b = true ∨ dateLe b a = true :=
  charListLe_total a.toList b.toList

theorem mem_insertByDate (x a : VisitRecord) (l : List VisitRecord) :
    a ∈ insertByDate x l ↔ a = x ∨ a ∈ l := by
  induction l with
  | nil => simp [insertByDate]
  | cons y ys ih =>
      rw [insertByDate]
      by_cases h : dateLe (dateKey y) (dateKey x) = true
      · rw [if_pos h]
        simp [List.mem_cons]
      · rw [if_neg h]
        simp [List.mem_cons, ih]
        tauto

theorem mem_sortByDateDesc (a : VisitRecord) (l : List VisitRecord) :
    a ∈ sortByDateDesc l ↔ a ∈ l := by
  induction l with
  | nil => simp [sortByDateDesc]
  | cons x xs ih =>
      rw [sortByDateDesc, mem_insertByDate]
      simp [List.mem_cons, ih]

theorem pairwise_insertByDate (x : VisitRecord) (l : List VisitRecord)
    (hl : l.Pairwise (fun a b => dateLe (dateKey b) (dateKey a) = true)) :
    (insertByDate x l).Pairwise (fun a b => dateLe (dateKey b) (dateKey a) = true) := by
  induction l with
  | nil => simp [insertByDate]
  | cons y ys ih =>
      rw [insertByDate]
      rcases List.pairwise_cons.mp hl with ⟨hy, hys⟩
      by_cases h : dateLe (dateKey y) (dateKey x) = true
      · rw [if_pos h]
        apply List.pairwise_cons.mpr
        refine ⟨?_, hl⟩
        intro b hb
        rcases List.mem_cons.mp hb with hb | hb
        · subst hb
          exact h
        · exact dateLe_trans (hy b hb) h
      · rw [if_neg h]
        apply List.pairwise_cons.mpr
        constructor
        · intro b hb
          rcases (mem_insertByDate x b ys).mp hb with hb | hb
          · subst hb
            rcases dateLe_total (dateKey y) (dateKey b) with htot | htot
            · exact absurd htot h
            · exact htot
          · exact hy b hb
        · exact ih hys

theorem pairwise_sortByDateDesc (l : List VisitRecord) :
    (sortByDateDesc l).Pairwise (fun a b => dateLe (dateKey b) (dateKey a) = true) := by
  induction l with
  | nil => simp [sortByDateDesc]
  | cons x xs ih =>
      rw [sortByDateDesc]
      exact pairwise_insertByDate x (sortByDateDesc xs) ih

theorem find?_pairwise_max {p : VisitRecord → Bool} :
    ∀ l : List VisitRecord,
      l.Pairwise (fun a b => dateLe (dateKey b) (dateKey a) = true) →
      ∀ r, l.find? p = some r →
        ∀ x ∈ l, p x = true → dateLe (dateKey x) (dateKey r) = true := by
  intro l
  induction l with
  | nil =>
      intro _ r hr
      simp at hr
  | cons a t ih =>
      intro hp r hr x hx hpx
      rcases List.pairwise_cons.mp hp with ⟨ha, ht⟩
      by_cases hpa : p a = true
      · rw [List.find?_cons_of_pos _ hpa] at hr
        cases hr
        rcases List.mem_cons.mp hx with hx | hx
        · subst hx
          exact charListLe_refl _
        · exact ha x hx
      · rw [List.find?_cons_of_neg _ (by simpa using hpa)] at hr
        rcases List.mem_cons.mp hx with hx | hx
        · subst hx
          exact absurd hpx hpa
        · exact ih ht r hr x hx hpx

/-- A visit dated "2024-03-01" with usable staff (id 5). -/
def recMarch : VisitRecord :=
  ⟨some 1, some "2024-03-01", some 1, some ⟨some 5, some "A", some "hair"⟩⟩

/-- A visit whose date field is the non-date string "zzz", with usable
staff (id 6). -/
def recGarbage : VisitRecord :=
  ⟨some 2, some "zzz", some 1, some ⟨some 6, some "B", some "nails"⟩⟩

/-- C7, counterexample: the date field is compared as a raw string, so
the unparseable date "zzz" sorts FIRST (not last) in the descending
order — resolution picks staff 6 from the "zzz" record even though a
usable real date "2024-03-01" (staff 5) is present, contradicting the
claim that unparseable dates sort last. -/
theorem last_visit_unparseable_date_sorts_first :
    lastVisitFromRecords [recMarch, recGarbage] = some (mkLastVisit recGarbage) ∧
    (mkLastVisit recGarbage).id = 6 ∧
    staffUsable recMarch = true ∧
    lastVisitFromRecords [recMarch, recGarbage] ≠ some (mkLastVisit recMarch) :=
  ⟨rfl, rfl, rfl, by decide⟩

/-- C7, amended: last-visit resolution sorts the records by their raw
date string, descending (missing dates become the empty string, the
minimum, hence sort last; the strings are never parsed as dates, so a
non-date string sorts purely by its characters), returns the first
record in that order whose staff sub-object has an id and a name
populated, skipping records with partial or missing staff info, and
returns `none` (not an error) when no record has usable staff.  The
chosen record always carries a maximal date key among the usable
records, and the spec's three-record example resolves to staff id 5. -/
theorem last_visit_resolution (records : List VisitRecord) :
    (lastVisitFromRecords records = none ↔
      ∀ r ∈ records, staffUsable r = false) ∧
    (∀ info, lastVisitFromRecords records = some info →
      ∃ r, r ∈ records ∧ staffUsable r = true ∧ info = mkLastVisit r ∧
        ∀ r2 ∈ records, staffUsable r2 = true →
          dateLe (dateKey r2) (dateKey r) = true) ∧
    (∀ r : VisitRecord, r.date = none → dateKey r = "") ∧
    (∀ s : String, dateLe "" s = true) ∧
    (lastVisitFromRecords
        [⟨some 1, some "2024-01-01", some 1, none⟩,
         ⟨some 2, some "2024-03-01", some 1, some ⟨some 5, some "A", none⟩⟩,
         ⟨some 3, some "2024-02-01", some 1, some ⟨some 6, some "B", none⟩⟩] =
      some ⟨5, "A", "", "2024-03-01", some 2, some 1⟩) := by
  refine ⟨?_, ?_, ?_, fun s => rfl, rfl⟩
  · rw [lastVisitFromRecords]
    constructor
    · intro h r hr
      cases hF : (sortByDateDesc records).find? staffUsable with
      | none =>
          have := List.find?_eq_none.mp hF r ((mem_sortByDateDesc r records).mpr hr)
          simpa using this
      | some v =>
          rw [hF] at h
          simp at h
    · intro h
      have hfind : (sortByDateDesc records).find? staffUsable = none :=
        List.find?_eq_none.mpr
          (fun x hx => by simp [h x ((mem_sortByDateDesc x records).mp hx)])
      rw [hfind]
      rfl
  · intro info h
    rw [lastVisitFromRecords] at h
    cases hF : (sortByDateDesc records).find? staffUsable with
    | none =>
        rw [hF] at h
        simp at h
    | some r =>
        rw [hF] at h
        simp at h
        refine ⟨r, ?_, ?_, h.symm, ?_⟩
        · exact (mem_sortByDateDesc r records).mp (List.mem_of_find?_eq_some hF)
        · exact List.find?_some hF
        · intro r2 hr2 hu2
          exact find?_pairwise_max (sortByDateDesc records)
            (pairwise_sortByDateDesc records) r hF r2
            ((mem_sortByDateDesc r2 records).mpr hr2) hu2
  · intro r h
    simp [dateKey, h]

/-- The spec's three-record example list. -/
def recsExample : List VisitRecord :=
  [⟨some 1, some "2024-01-01", some 1, none⟩,
   ⟨some 2, some "2024-03-01", some 1, some ⟨some 5, some "A", none⟩⟩,
   ⟨some 3, some "2024-02-01", some 1, some ⟨some 6, some "B", none⟩⟩]

theorem last_visit_resolution_witness :
    ∃ r, r ∈ recsExample ∧ staffUsable r = true ∧
      (⟨5, "A", "", "2024-03-01", some 2, some 1⟩ : LastVisitInfo) = mkLastVisit r ∧
      ∀ r2 ∈ recsExample, staffUsable r2 = true →
        dateLe (dateKey r2) (dateKey r) = true :=
  (last_visit_resolution recsExample).2.1
    ⟨5, "A", "", "2024-03-01", some 2, some 1⟩ rfl

/-- A candidate whose stored phone is the non-empty digitless string "-". -/
def dashClient : Client := ⟨some 3, "-"⟩

/-- C10: a search response containing a candidate whose stored phone is
non-empty but digit-free makes `_find_client_by_phone` raise the
normalization `ValueError` instead of skipping the candidate, and
`get_client_last_visit_info` propagates it. -/
theorem lookup_raises_on_digitless_candidate :
    find_client_by_phone (fun _ => some [dashClient]) "79123456789" =
      Except.error (PyErr.value "Phone number must contain at least one digit") ∧
    get_client_last_visit_info (fun _ => some [dashClient]) (fun _ => some [])
        "79123456789" =
      Except.error (PyErr.value "Phone number must contain at least one digit") :=
  ⟨rfl, rfl⟩

/-! ## Claims C8 and C9 -/

/-- A category whose id is 0. -/
def catZero : SvcCategory := ⟨some 0, some "Zero"⟩

/-- A service carrying `category_id` 0 — exactly category `catZero`'s id. -/
def svcZero : SvcService := ⟨12, some "S", some 100, some 200, none, some 0, none⟩

/-- C8, counterexample: the grouping guard is `if category_id:` (Python
truthiness), so a service carrying `category_id` 0 is dropped even
though a category with id 0 is present in the category list — that
category receives an empty group instead of "exactly the services
carrying that category's id". -/
theorem catalog_drops_zero_category_id :
    svcZero.category_id = some 0 ∧
    catZero.id = some 0 ∧
    buildCatalogCategories [catZero] [svcZero] =
      [{ category_id := some 0, title := "Zero", services := [] }] ∧
    (buildCatalogCategories [catZero] [svcZero]).map (fun c => c.services) ≠
      [[fmtService svcZero]] :=
  ⟨rfl, rfl, rfl, by decide⟩

/-- C8, amended: catalog assembly attaches to each listed category
exactly the services whose `category_id` equals that category's id AND
is truthy (present and non-zero) — so services missing a `category_id`,
or carrying the falsy id 0, are excluded from every group and from the
whole output (no catch-all bucket); a category with a missing or zero id
gets the empty list; the output has one entry per listed category, in
order.  The spec's concrete example is included. -/
theorem catalog_assembly (categories : List SvcCategory)
    (services : List SvcService) :
    buildCatalogCategories categories services =
      categories.map (fun cat =>
        { category_id := cat.id
          title := cat.title.getD ""
          services :=
            match cat.id with
            | some c =>
                if c = 0 then []
                else (services.filter
                        (fun s => s.category_id == some c)).map fmtService
            | none => [] }) ∧
    (buildCatalogCategories categories services).map (fun c => c.category_id) =
      categories.map (fun cat => cat.id) ∧
    (buildCatalogCategories
        [⟨some 1, some "X"⟩, ⟨some 2, some "Y"⟩]
        [⟨10, none, none, none, none, some 1, none⟩,
         ⟨11, none, none, none, none, some 1, none⟩,
         ⟨12, none, none, none, none, some 99, none⟩]).map
        (fun c => (c.category_id, c.services.map (fun s => s.service_id))) =
      [(some 1, [10, 11]), (some 2, [])] := by
  refine ⟨?_, ?_, rfl⟩
  · rw [buildCatalogCategories]
    apply List.map_congr_left
    intro cat _
    cases hid : cat.id with
    | none => rfl
    | some c =>
        have hsv := groupGet_servicesByCategory services c
        by_cases hc : c = 0
        · subst hc
          simp only [hsv]
          simp
        · simp only [hsv]
          simp only [if_neg hc]
          congr 1
          congr 1
          apply List.filter_congr
          intro s _
          simp [hc]
  · rw [buildCatalogCategories]
    rw [List.map_map]
    rfl

/-- C9: branch listing is a pure function of the instance configuration
and the remote responses: it never mutates the configuration, a repeated
call with the same remote data returns the very same normalized output,
and the output depends on the transport oracle only extensionally. -/
theorem list_branches_stateless_idempotent (cfg : ApiConfig)
    (respond : Nat → HttpResp) (activeOnly : Bool) :
    (list_branches cfg respond activeOnly).1 = cfg ∧
    list_branches (list_branches cfg respond activeOnly).1 respond activeOnly =
      list_branches cfg respond activeOnly ∧
    (∀ respond2 : Nat → HttpResp, (∀ k, respond2 k = respond k) →
      list_branches cfg respond2 activeOnly =
        list_branches cfg respond activeOnly) := by
  refine ⟨rfl, rfl, ?_⟩
  intro respond2 h
  have : respond2 = respond := funext h
  rw [this]

theorem list_branches_stateless_idempotent_witness :
    list_branches cfgNoUser respondOk true =
      list_branches cfgNoUser respondOk true :=
  (list_branches_stateless_idempotent cfgNoUser respondOk true).2.2
    respondOk (fun _ => rfl)
